import Mathlib

/-!
Verification development for the RepoSentry synchronization engine.

The definitions below are a shallow embedding of the Rust sources:
`src/git.rs` (git executor and per-repository state machine),
`src/sync.rs` (orchestrator, summary, result recording) and
`src/state.rs` (event/record store).  Subprocess results are modelled by a
`GitWorld` record holding the observable output of each git query for the
repository under consideration; effectful functions run in a small
writer/except monad `GitM` that accumulates the list of git commands issued,
so that claims about which operations were (not) performed can be stated.

Paths (`PathBuf`) are modelled as lists of path components, where an absolute
path has the component "/" first, mirroring `std::path::Components` in which
the root directory is a component.  Strings are Lean `String`s; Rust's
`str::trim` is modelled by `strTrim`, `str::to_lowercase` by an
ASCII-wise `Char.toLower` map (all strings in the claims are ASCII).
Floating point arithmetic in `calculate_adaptive_concurrency` is modelled by
exact rational arithmetic.
-/

namespace RepoSentry

/-! ### String helpers mirroring Rust `str` methods -/

/-- Prefix test on character lists (Rust `str::starts_with`), recursing on
the pattern first. -/
def isPrefixChars : List Char → List Char → Bool
  | [], _ => true
  | _ :: _, [] => false
  | a :: as, b :: bs => a == b && isPrefixChars as bs

/-- Rust `str::contains(pat)` on character lists: some contiguous run of `s`
equals `pat`.  `containsSub s []` is `true`, as in Rust. -/
def containsSub (s pat : List Char) : Bool :=
  match s with
  | [] => pat.isEmpty
  | _ :: rest => isPrefixChars pat s || containsSub rest pat

/-- Rust `str::contains` on strings. -/
def strContains (s pat : String) : Bool :=
  containsSub s.toList pat.toList

/-- Scanner for Rust `str::replace(pat, rep)`.  In normal mode (`skip = 0`)
a leftmost match of `pat` emits `rep`, drops the matched head character and
enters skip mode for the remaining `pat.length - 1` matched characters;
non-matching characters are copied.  This realizes the leftmost,
non-overlapping scan of Rust `str::replace` by structural recursion. -/
def replaceAllGo (pat rep : List Char) : Nat → List Char → List Char
  | _, [] => []
  | skip + 1, _ :: rest => replaceAllGo pat rep skip rest
  | 0, c :: rest =>
    if !pat.isEmpty && isPrefixChars pat (c :: rest) then
      rep ++ replaceAllGo pat rep (pat.length - 1) rest
    else
      c :: replaceAllGo pat rep 0 rest

/-- Rust `str::replace(pat, rep)`: replace every non-overlapping occurrence
of `pat`, scanning left to right.  A (never exercised) empty pattern is left
unreplaced to keep the function total. -/
def replaceAll (pat rep : List Char) (s : List Char) : List Char :=
  replaceAllGo pat rep 0 s

/-- Scanner for Rust `str::trim_end_matches(pat)` on the reversed input:
strip the (reversed) pattern from the front as often as it occurs. -/
def stripRepGo (rpat : List Char) : Nat → List Char → List Char
  | _ + 1, [] => []
  | skip + 1, _ :: rest => stripRepGo rpat skip rest
  | 0, [] => []
  | 0, c :: rest =>
    if !rpat.isEmpty && isPrefixChars rpat (c :: rest) then
      stripRepGo rpat (rpat.length - 1) rest
    else
      c :: rest

/-- Rust `str::trim_end_matches(pat)`: repeatedly remove the suffix `pat`. -/
def trimEndAll (pat : List Char) (s : List Char) : List Char :=
  (stripRepGo pat.reverse 0 s.reverse).reverse

/-- ASCII lowercasing, modelling Rust `str::to_lowercase` on ASCII input. -/
def lowerStr (s : String) : String :=
  String.mk (s.toList.map Char.toLower)

/-- Rust `str::trim`: drop whitespace from both ends. -/
def strTrim (s : String) : String :=
  String.mk
    (((s.toList.dropWhile Char.isWhitespace).reverse.dropWhile
        Char.isWhitespace).reverse)

/-- Value of a nonempty digit run, `none` on empty input or a non-digit. -/
def digitsToNat? (l : List Char) : Option Nat :=
  if l = [] then none
  else if l.all Char.isDigit then
    some (l.foldl (fun acc c => acc * 10 + (c.toNat - 48)) 0)
  else none

/-- Rust `str::parse::<u32>`: optional sign, digits, bounded by `u32::MAX`. -/
def parseU32 (s : String) : Option Nat :=
  let l := match s.toList with
    | '+' :: rest => rest
    | l => l
  match digitsToNat? l with
  | some n => if n < 4294967296 then some n else none
  | none => none

/-- Rust `str::parse::<i64>`: optional sign, digits, bounded by `i64`. -/
def parseI64 (s : String) : Option Int :=
  let signed : Bool × List Char := match s.toList with
    | '-' :: rest => (true, rest)
    | '+' :: rest => (false, rest)
    | l => (false, l)
  match digitsToNat? signed.2 with
  | some n =>
    if signed.1 then
      if (n : Int) ≤ 9223372036854775808 then some (-(n : Int)) else none
    else
      if n < 9223372036854775808 then some (n : Int) else none
  | none => none

/-! ### Data model: paths, repo specifications, outcomes -/

/-- A `PathBuf`, as its list of components ("/" first when absolute). -/
abbrev RPath := List String

/-- Display form of a path, used for `Path::to_string_lossy` fallbacks. -/
def pathToString : RPath → String
  | [] => ""
  | "/" :: rest => "/" ++ String.intercalate "/" rest
  | cs => String.intercalate "/" cs

/-- Clone method preference, from `src/discovery.rs`. -/
inductive CloneMethod
  | Ssh
  | Https
deriving DecidableEq, Repr

/-- Provider-agnostic repository specification, from `src/discovery.rs`. -/
structure RepoSpec where
  name : String
  owner : String
  clone_url : String
  clone_url_alt : Option String
  clone_method : CloneMethod
  local_path : RPath
  is_fork : Bool
  is_archived : Bool
  size_bytes : Option Nat
  default_branch : Option String
  provider : String
deriving Repr

/-- Display name `owner/name`, from `RepoSpec::full_name`. -/
def RepoSpec.full_name (s : RepoSpec) : String :=
  s.owner ++ "/" ++ s.name

/-- The fields of the octocrab `Repository` record that `src/git.rs` reads. -/
structure Repository where
  name : String
  full_name : Option String
  clone_url : Option String
  ssh_url : Option String
deriving Repr

/-- Result of a per-repository sync operation (`SyncResult` in `src/git.rs`). -/
inductive SyncResult
  | Cloned (path : RPath) (branch : Option String)
  | Pulled (path : RPath) (commits_updated : Nat) (branch : Option String)
  | BranchSwitched (path : RPath) (from_branch to_branch : String)
      (commits_updated : Nat)
  | FetchedOnly (path : RPath) (reason : String)
  | UpToDate (path : RPath) (branch : Option String)
  | Skipped (path : RPath) (reason : String)
  | Failed (path : RPath) (error : String)
deriving DecidableEq, Repr

/-- The path carried by every `SyncResult` variant. -/
def SyncResult.path : SyncResult → RPath
  | .Cloned p _ => p
  | .Pulled p _ _ => p
  | .BranchSwitched p _ _ _ => p
  | .FetchedOnly p _ => p
  | .UpToDate p _ => p
  | .Skipped p _ => p
  | .Failed p _ => p

/-- Observed repository state (`RepoState` in `src/git.rs`). -/
structure RepoState where
  path : RPath
  exists_ : Bool
  has_uncommitted_changes : Bool
  has_untracked_files : Bool
  is_ahead_of_remote : Bool
  is_behind_remote : Bool
  has_conflicts : Bool
  remote_url : Option String
  current_branch : Option String
deriving DecidableEq, Repr

/-! ### Configuration (`src/config.rs`) -/

/-- Sync section of the configuration. -/
structure SyncConfig where
  strategy : String
  max_parallel : Nat
  timeoutSecs : Nat
  auto_stash : Bool
  fast_forward_only : Bool

/-- Advanced section of the configuration. -/
structure AdvancedConfig where
  preserve_timestamps : Bool
  verify_clone : Bool
  cleanup_on_error : Bool

/-- Organization section of the configuration. -/
structure OrganizationConfig where
  separate_org_dirs : Bool
  conflict_resolution : String

/-- Modelled from the spec: the `BranchConfig` struct consulted by
`src/git.rs` via `config.branches.is_most_recent_strategy()` and
`config.branches.is_branch_excluded(..)` is not present under `src/`.
Following the spec (§4.2, §6): `is_most_recent_strategy` holds when the
configured strategy is most-recent-branch, and branches matching the
configured exclusion patterns are excluded, here kept as an abstract
predicate. -/
structure BranchesConfig where
  most_recent_strategy : Bool
  is_branch_excluded : String → Bool

/-- The parts of `Config` that the sync engine reads.  `base_directory` is
kept as pre-expanded path components (the spec guarantees paths are fully
resolved before the engine runs, so the `shellexpand` branch is not taken). -/
structure Config where
  base_directory : RPath
  sync : SyncConfig
  organization : OrganizationConfig
  advanced : AdvancedConfig
  branches : BranchesConfig

/-! ### Git command traces and the observable git world -/

/-- One git subprocess invocation, by command line shape. -/
inductive GitCmd
  | status
  | lsFiles
  | showCurrentBranch
  | remoteGetUrl
  | fetchOrigin
  | fetchAllPrune
  | revListAhead
  | revListBehind
  | diffUnmerged
  | pull (ffOnly : Bool)
  | checkout (branch : String)
  | checkoutTrack (branch : String)
  | clone (url : String)
  | stash
  | forEachRef
  | logTimestamp
  | fsck
deriving DecidableEq, Repr

/-- Whether a git command can change the working tree, its branches or the
local history (pull, checkout, clone, stash). -/
def GitCmd.isStateChanging : GitCmd → Bool
  | .pull _ => true
  | .checkout _ => true
  | .checkoutTrack _ => true
  | .clone _ => true
  | .stash => true
  | _ => false

/-- Observable results of the git subprocess queries for one repository's
working directory, fixed for the duration of one per-repo operation. -/
structure GitWorld where
  pathExists : Bool
  gitDirExists : Bool
  statusOk : Bool
  statusOut : String
  lsFilesOut : String
  branchOk : Bool
  branchOut : String
  remoteOk : Bool
  remoteOut : String
  fetchOk : Bool
  fetchErr : String
  fetchAllOk : Bool
  fetchAllErr : String
  aheadOk : Bool
  aheadOut : String
  behindOk : Bool
  behindOut : String
  diffUnmergedOut : String
  pullOk : Bool
  pullOut : String
  pullErr : String
  stashOk : Bool
  stashErr : String
  checkoutLocalOk : Bool
  checkoutTrackOk : Bool
  checkoutErr : String
  cloneOk : Bool
  cloneErr : String
  fsckOk : Bool
  fsckErr : String
  logOk : Bool
  logOut : String
  forEachRefOk : Bool
  remoteRefs : List String

/-- Writer/except monad: a computation records the git commands it issued
and either returns a value or fails with an `anyhow`-style error string. -/
def GitM (α : Type) : Type := List GitCmd × Except String α

/-- Commands issued by a computation (also on the error path). -/
def GitM.trace {α : Type} (x : GitM α) : List GitCmd := x.1

/-- Final result of a computation. -/
def GitM.result {α : Type} (x : GitM α) : Except String α := x.2

instance : Monad GitM where
  pure a := ([], .ok a)
  bind x f :=
    match x with
    | (t, .error e) => (t, .error e)
    | (t, .ok a) => ((t ++ (f a).1), (f a).2)

/-- Record that a git command was spawned. -/
def emit (c : GitCmd) : GitM Unit := ([c], .ok ())

/-- Fail with an error message (Rust `return Err(anyhow!(..))`). -/
def gitErr {α : Type} (e : String) : GitM α := ([], .error e)

/-- Run a computation and capture its outcome (Rust `if let Err(e) = ..`). -/
def attempt {α : Type} (x : GitM α) : GitM (Except String α) :=
  (x.1, .ok x.2)

/-- Run a computation whose failure is only logged as a warning
(Rust `if let Err(e) = .. { warn!(..) }`). -/
def warnOnly {α : Type} (x : GitM α) : GitM Unit :=
  (x.1, .ok ())

/-- Prepend context to an error (`anyhow::Context::context`). -/
def withContext {α : Type} (msg : String) (x : GitM α) : GitM α :=
  match x with
  | (t, .error e) => (t, .error (msg ++ ": " ++ e))
  | ok => ok

/-! ### Git executor helpers (`src/git.rs`) -/

/-- Rust `count_str.parse::<u32>().unwrap_or(0)`. -/
def parse_count_u32 (s : String) : Nat :=
  (parseU32 s).getD 0

/-- The pull-output sentinel from `GitClient::parse_pull_output`. -/
def parse_pull_output (out : String) : Nat :=
  if strContains out "Updating" then 1
  else if strContains out "Already up to date" then 0
  else 1

/-- The URL normalization closure inside `GitClient::remote_urls_match`:
replace `git@github.com:` by `https://github.com/`, strip trailing `.git`,
lowercase. -/
def normalizeUrl (url : String) : String :=
  lowerStr (String.mk (trimEndAll ".git".toList
    (replaceAll "git@github.com:".toList "https://github.com/".toList url.toList)))

/-- `GitClient::remote_urls_match`. -/
def remote_urls_match (actual expected : String) : Bool :=
  normalizeUrl actual == normalizeUrl expected

/-- `git status --porcelain`, emptiness of stdout (no exit-status check). -/
def has_uncommitted_changes (w : GitWorld) : GitM Bool := do
  emit .status
  pure (w.statusOut != "")

/-- `git ls-files --others --exclude-standard`, emptiness of stdout. -/
def has_untracked_files (w : GitWorld) : GitM Bool := do
  emit .lsFiles
  pure (w.lsFilesOut != "")

/-- `git branch --show-current`, `Some(trimmed)` on success+nonempty. -/
def get_current_branch (w : GitWorld) : GitM (Option String) := do
  emit .showCurrentBranch
  pure (if w.branchOk && w.branchOut != "" then some (strTrim w.branchOut) else none)

/-- `git remote get-url origin`, `Some(trimmed)` on success. -/
def get_remote_url (w : GitWorld) : GitM (Option String) := do
  emit .remoteGetUrl
  pure (if w.remoteOk then some (strTrim w.remoteOut) else none)

/-- `git fetch origin`; error on non-zero exit. -/
def git_fetch (w : GitWorld) : GitM Unit := do
  emit .fetchOrigin
  if w.fetchOk then pure () else gitErr ("Git fetch failed: " ++ w.fetchErr)

/-- `git rev-list --count origin/HEAD..HEAD` compared with 0;
false on command failure. -/
def is_ahead_of_remote (w : GitWorld) : GitM Bool := do
  emit .revListAhead
  pure (if w.aheadOk then decide (parse_count_u32 (strTrim w.aheadOut) > 0) else false)

/-- `git rev-list --count HEAD..origin/HEAD` compared with 0;
false on command failure. -/
def is_behind_remote (w : GitWorld) : GitM Bool := do
  emit .revListBehind
  pure (if w.behindOk then decide (parse_count_u32 (strTrim w.behindOut) > 0) else false)

/-- `git diff --name-only --diff-filter=U`, emptiness of stdout. -/
def has_merge_conflicts (w : GitWorld) : GitM Bool := do
  emit .diffUnmerged
  pure (w.diffUnmergedOut != "")

/-- `git stash push -m "RepoSentry auto-stash"`. -/
def git_stash (w : GitWorld) : GitM Unit := do
  emit .stash
  if w.stashOk then pure () else gitErr ("Git stash failed: " ++ w.stashErr)

/-- `GitClient::set_directory_commit_timestamp`: read `git log -1
--format=%ct`, validate the 2005..2050 range, set the directory mtime
(a filesystem effect, not traced). -/
def set_directory_commit_timestamp (w : GitWorld) : GitM Unit := do
  emit .logTimestamp
  if ¬w.logOk then gitErr "Git log command failed"
  else
    let ts := strTrim w.logOut
    if ts = "" then gitErr "No commits found in repository"
    else
      match parseI64 ts with
      | none => gitErr "Invalid timestamp from git log"
      | some t =>
        if 1104537600 ≤ t ∧ t ≤ 2524608000 then pure ()
        else gitErr ("Commit timestamp " ++ toString t ++ " is outside valid range")

/-- `git fsck` (`GitClient::verify_repository_integrity`). -/
def verify_repository_integrity (w : GitWorld) : GitM Unit := do
  emit .fsck
  if w.fsckOk then pure ()
  else gitErr ("Repository integrity check failed: " ++ w.fsckErr)

/-- `GitClient::git_pull`: `git pull origin [--ff-only]`; on failure a
`Failed` outcome, on success a `Pulled` outcome with the parsed sentinel
commit count and the (error-tolerant) current branch. -/
def git_pull (cfg : Config) (w : GitWorld) (path : RPath) : GitM SyncResult := do
  emit (.pull cfg.sync.fast_forward_only)
  if ¬w.pullOk then
    pure (.Failed path ("Git pull failed: " ++ w.pullErr))
  else do
    let commits := parse_pull_output w.pullOut
    if cfg.advanced.preserve_timestamps then
      warnOnly (set_directory_commit_timestamp w)
    let br ← attempt (get_current_branch w)
    pure (.Pulled path commits (match br with | .ok b => b | .error _ => none))

/-- `GitClient::analyze_repo_state`. -/
def analyze_repo_state (w : GitWorld) (path : RPath) (remote_url : String) :
    GitM RepoState :=
  if ¬w.pathExists then
    pure { path, exists_ := false, has_uncommitted_changes := false,
           has_untracked_files := false, is_ahead_of_remote := false,
           is_behind_remote := false, has_conflicts := false,
           remote_url := some remote_url, current_branch := none }
  else if ¬w.gitDirExists then
    gitErr ("Directory exists but is not a git repository: " ++ pathToString path)
  else do
    let huc ← has_uncommitted_changes w
    let hut ← has_untracked_files w
    let cb ← get_current_branch w
    let aru ← get_remote_url w
    warnOnly (git_fetch w)
    let ahead ← is_ahead_of_remote w
    let behind ← is_behind_remote w
    let conflicts ← has_merge_conflicts w
    pure { path, exists_ := true, has_uncommitted_changes := huc,
           has_untracked_files := hut, is_ahead_of_remote := ahead,
           is_behind_remote := behind, has_conflicts := conflicts,
           remote_url := aru, current_branch := cb }

/-- `GitClient::safe_pull_sync`. -/
def safe_pull_sync (cfg : Config) (w : GitWorld) (state : RepoState) :
    GitM SyncResult := do
  let path := state.path
  if state.has_uncommitted_changes then
    if cfg.sync.auto_stash then
      git_stash w
    else
      return .FetchedOnly path "Repository has uncommitted changes"
  if state.has_conflicts then
    return .FetchedOnly path "Repository has unresolved conflicts"
  if state.is_ahead_of_remote then
    return .FetchedOnly path "Repository is ahead of remote (has local commits)"
  if ¬state.is_behind_remote then
    return .FetchedOnly path "Repository is up to date"
  git_pull cfg w path

/-- `GitClient::fetch_only_sync`. -/
def fetch_only_sync (w : GitWorld) (state : RepoState) : GitM SyncResult := do
  git_fetch w
  pure (.FetchedOnly state.path "Fetch-only strategy (no pull performed)")

/-- `GitClient::interactive_sync` falls back to safe pull. -/
def interactive_sync (cfg : Config) (w : GitWorld) (state : RepoState) :
    GitM SyncResult :=
  safe_pull_sync cfg w state

/-- Split a character list at the first occurrence of `c`
(Rust `str::find` followed by the two slices). -/
def splitAtChar (c : Char) : List Char → Option (List Char × List Char)
  | [] => none
  | x :: rest =>
    if x = c then some ([], rest)
    else
      match splitAtChar c rest with
      | some (a, b) => some (x :: a, b)
      | none => none

/-- `GitClient::get_repo_directory` (environment expansion skipped: the spec
guarantees the base directory is fully resolved). -/
def get_repo_directory (cfg : Config) (repo : Repository) : RPath :=
  let base := cfg.base_directory
  let full_name := repo.full_name.getD repo.name
  if cfg.organization.separate_org_dirs then
    match splitAtChar '/' full_name.toList with
    | some (org, rname) => base ++ [String.mk org, String.mk rname]
    | none => base ++ [repo.name]
  else
    match cfg.organization.conflict_resolution with
    | "prefix-org" =>
      base ++ [String.mk (full_name.toList.map (fun c => if c = '/' then '-' else c))]
    | "suffix" => base ++ [repo.name]
    | _ => base ++ [repo.name]

/-- Clone URL choice in `clone_repository`/`sync_repository`:
`clone_url` first, then `ssh_url`. -/
def repoCloneUrl (repo : Repository) : Option String :=
  match repo.clone_url with
  | some u => some u
  | none => repo.ssh_url

/-- `GitClient::clone_repository` (octocrab `Repository` based path). -/
def clone_repository (cfg : Config) (w : GitWorld) (repo : Repository) :
    GitM SyncResult := do
  let target_path := get_repo_directory cfg repo
  match repoCloneUrl repo with
  | none => pure (.Failed target_path "No valid clone URL found")
  | some clone_url => do
    emit (.clone clone_url)
    if ¬w.cloneOk then
      pure (.Failed target_path ("Git clone failed: " ++ w.cloneErr))
    else do
      if cfg.advanced.preserve_timestamps then
        warnOnly (set_directory_commit_timestamp w)
      if cfg.advanced.verify_clone then
        let vr ← attempt (verify_repository_integrity w)
        match vr with
        | .error e =>
          return .Failed target_path ("Integrity verification failed: " ++ e)
        | .ok _ => pure ()
      let br ← attempt (get_current_branch w)
      pure (.Cloned target_path (match br with | .ok b => b | .error _ => none))

/-- `GitClient::sync_repository` (octocrab `Repository` based path): the only
code path that validates the remote URL before dispatching on the strategy. -/
def sync_repository (cfg : Config) (w : GitWorld) (repo : Repository) :
    GitM SyncResult := do
  let target_path := get_repo_directory cfg repo
  if ¬w.pathExists then
    clone_repository cfg w repo
  else
    match repoCloneUrl repo with
    | none => pure (.Skipped target_path "No valid remote URL found")
    | some clone_url => do
      let state ← analyze_repo_state w target_path clone_url
      match state.remote_url with
      | some actual =>
        if ¬remote_urls_match actual clone_url then
          return .Skipped target_path
            ("Remote URL mismatch: expected " ++ clone_url ++ ", found " ++ actual)
      | none => pure ()
      match cfg.sync.strategy with
      | "safe-pull" => safe_pull_sync cfg w state
      | "fetch-only" => fetch_only_sync w state
      | "interactive" => interactive_sync cfg w state
      | _ => safe_pull_sync cfg w state

/-- Strip the `origin/` prefix from a trimmed ref line
(`line.trim().strip_prefix("origin/").unwrap_or(line.trim())`). -/
def dropOriginRefHead (line : String) : String :=
  let t := strTrim line
  if isPrefixChars "origin/".toList t.toList then String.mk (t.toList.drop 7)
  else t

/-- The line scan inside `GitClient::get_most_recent_branch`: skip `HEAD`
and excluded branches, return the first remaining branch. -/
def pick_branch (cfg : Config) : List String → Option String
  | [] => none
  | line :: rest =>
    let branch := dropOriginRefHead line
    if branch = "HEAD" then pick_branch cfg rest
    else if cfg.branches.is_branch_excluded branch then pick_branch cfg rest
    else some branch

/-- `GitClient::get_most_recent_branch`. -/
def get_most_recent_branch (cfg : Config) (w : GitWorld) :
    GitM (Option String) := do
  emit .forEachRef
  if ¬w.forEachRefOk then gitErr "Git for-each-ref failed"
  else pure (pick_branch cfg w.remoteRefs)

/-- `GitClient::fetch_all_branches`: `git fetch --all --prune`. -/
def fetch_all_branches (w : GitWorld) : GitM Unit := do
  emit .fetchAllPrune
  if w.fetchAllOk then pure ()
  else gitErr ("Git fetch --all failed: " ++ w.fetchAllErr)

/-- `GitClient::checkout_branch`: local checkout, falling back to creating a
tracking branch from `origin/<branch>`. -/
def checkout_branch (w : GitWorld) (branch : String) : GitM Unit := do
  emit (.checkout branch)
  if w.checkoutLocalOk then pure ()
  else do
    emit (.checkoutTrack branch)
    if w.checkoutTrackOk then pure ()
    else gitErr ("Git checkout failed: " ++ w.checkoutErr)

/-- `GitClient::sync_with_most_recent_branch`. -/
def sync_with_most_recent_branch (cfg : Config) (w : GitWorld) (path : RPath) :
    GitM SyncResult := do
  fetch_all_branches w
  let cb ← get_current_branch w
  let current_branch := cb.getD "unknown"
  let most_recent ← get_most_recent_branch cfg w
  match most_recent with
  | none => git_pull cfg w path
  | some target_branch =>
    if current_branch ≠ target_branch then do
      checkout_branch w target_branch
      let pull_result ← git_pull cfg w path
      let commits_updated :=
        match pull_result with
        | .Pulled _ n _ => n
        | _ => 0
      pure (.BranchSwitched path current_branch target_branch commits_updated)
    else
      git_pull cfg w path

/-- `GitClient::has_any_local_changes`: errors on git failure, otherwise
tests `git status --porcelain` output after trimming. -/
def has_any_local_changes (w : GitWorld) : GitM Bool := do
  emit .status
  if ¬w.statusOk then gitErr "Git status failed"
  else pure ((strTrim w.statusOut) != "")

/-- `GitClient::clone_from_spec` (RepoSpec based path). -/
def clone_from_spec (cfg : Config) (w : GitWorld) (spec : RepoSpec) :
    GitM SyncResult := do
  let target_path := spec.local_path
  emit (.clone spec.clone_url)
  if ¬w.cloneOk then
    gitErr ("Clone failed: " ++ w.cloneErr)
  else do
    if cfg.advanced.verify_clone then
      verify_repository_integrity w
    if cfg.advanced.preserve_timestamps then
      warnOnly (set_directory_commit_timestamp w)
    let branch ←
      if cfg.branches.most_recent_strategy then do
        fetch_all_branches w
        let mr ← get_most_recent_branch cfg w
        match mr with
        | some most_recent => do
          let cb ← get_current_branch w
          let current := cb.getD ""
          if current ≠ most_recent then
            checkout_branch w most_recent
          pure (some most_recent)
        | none => do
          let br ← attempt (get_current_branch w)
          pure (match br with | .ok b => b | .error _ => none)
      else do
        let br ← attempt (get_current_branch w)
        pure (match br with | .ok b => b | .error _ => none)
    pure (.Cloned target_path branch)

/-- `GitClient::sync_from_spec` (RepoSpec based path): the per-repo sync the
orchestrator dispatches. -/
def sync_from_spec (cfg : Config) (w : GitWorld) (spec : RepoSpec) :
    GitM SyncResult := do
  let target_path := spec.local_path
  if ¬w.pathExists then
    clone_from_spec cfg w spec
  else do
    let changes ← has_any_local_changes w
    if changes then
      return .Skipped target_path
        "Repository has local changes (uncommitted or untracked files)"
    let state ← withContext "Failed to analyze repository state"
      (analyze_repo_state w target_path spec.clone_url)
    if state.has_conflicts then do
      git_fetch w
      return .FetchedOnly target_path "Repository has unresolved conflicts"
    if cfg.sync.strategy = "fetch-only" then do
      git_fetch w
      return .FetchedOnly target_path "Fetch-only strategy configured"
    if cfg.branches.most_recent_strategy then
      sync_with_most_recent_branch cfg w target_path
    else
      git_pull cfg w target_path

/-! ### State store model (`src/state.rs`) -/

/-- Event types recorded in the store. -/
inductive EventType
  | Cloned
  | Pulled
  | BranchSwitch
  | SkippedLocalChanges
  | SkippedConflicts
  | SkippedAheadOfRemote
  | SyncError
deriving DecidableEq, Repr

/-- Severity levels. -/
inductive Severity
  | Info
  | Warning
  | Error
deriving DecidableEq, Repr

/-- `EventType::severity`. -/
def EventType.severity : EventType → Severity
  | .Cloned => .Info
  | .Pulled => .Info
  | .BranchSwitch => .Warning
  | .SkippedLocalChanges => .Warning
  | .SkippedConflicts => .Warning
  | .SkippedAheadOfRemote => .Info
  | .SyncError => .Error

/-- `EventType::as_str`. -/
def EventType.as_str : EventType → String
  | .Cloned => "cloned"
  | .Pulled => "pulled"
  | .BranchSwitch => "branch_switch"
  | .SkippedLocalChanges => "skipped_local_changes"
  | .SkippedConflicts => "skipped_conflicts"
  | .SkippedAheadOfRemote => "skipped_ahead_of_remote"
  | .SyncError => "sync_error"

/-- `Severity::as_str`. -/
def Severity.as_str : Severity → String
  | .Info => "info"
  | .Warning => "warning"
  | .Error => "error"

/-- Repository sync status stored in the `repositories` table. -/
inductive RepoStatus
  | Ok
  | Skipped
  | Error
  | Unknown
deriving DecidableEq, Repr

/-- One write issued against the state database by the recorder:
a `StateDb::upsert_repo` call or a `StateDb::record_event` call (the
severity stored by `record_event` is `etype.severity`). -/
inductive DbOp
  | upsertRepo (full_name : String) (local_path : Option String)
      (current_branch : Option String) (status : RepoStatus)
      (skip_reason : Option String)
  | recordEvent (repo_full_name : Option String) (etype : EventType)
      (summary : String) (details : Option String)
deriving DecidableEq, Repr

/-- A stored event row (`events` table), with its timestamp in seconds
(RFC3339 strings of a fixed UTC format compare lexicographically exactly as
their instants compare). -/
structure DbEvent where
  id : Nat
  timestamp : Int
  repo_full_name : Option String
  event_type : EventType
  acknowledged : Bool
deriving DecidableEq, Repr

/-- `StateDb::cleanup_old_events(days)`: `DELETE FROM events WHERE
timestamp < now - days AND acknowledged = 1`; returns the remaining rows and
the deleted count.  `chrono::Duration::days(days)` is `days * 86400`
seconds. -/
def cleanup_old_events (days : Nat) (now : Int) (events : List DbEvent) :
    List DbEvent × Nat :=
  let cutoff := now - 86400 * (days : Int)
  let remaining := events.filter
    (fun e => ¬(e.timestamp < cutoff ∧ e.acknowledged = true))
  (remaining, events.length - remaining.length)

/-! ### Orchestrator (`src/sync.rs`) -/

/-- Aggregate counts over one run (`SyncSummary`, duration omitted). -/
structure SyncSummary where
  total_repositories : Nat
  successful_operations : Nat
  failed_operations : Nat
  skipped_operations : Nat
  results : List SyncResult
deriving DecidableEq, Repr

/-- `SyncEngine::compile_summary`. -/
def compile_summary (results : List SyncResult) : SyncSummary :=
  let successful_operations := results.countP (fun r =>
    match r with
    | .Cloned _ _ => true
    | .Pulled _ _ _ => true
    | .BranchSwitched _ _ _ _ => true
    | .FetchedOnly _ _ => true
    | .UpToDate _ _ => true
    | _ => false)
  let skipped_operations := results.countP (fun r =>
    match r with
    | .Skipped _ _ => true
    | _ => false)
  let failed_operations := results.countP (fun r =>
    match r with
    | .Failed _ _ => true
    | _ => false)
  { total_repositories := results.length, successful_operations,
    failed_operations, skipped_operations, results }

/-- The per-spec execution inside `SyncEngine::sync_specs_parallel`:
`sync_from_spec` raced against the configured timeout.  `timedOut` says for
which specs the deadline fired, `world` gives each repository's git world. -/
def run_spec_with_timeout (cfg : Config) (timedOut : RepoSpec → Bool)
    (world : RepoSpec → GitWorld) (spec : RepoSpec) : Except String SyncResult :=
  if timedOut spec then
    .error ("Operation timed out after " ++ toString cfg.sync.timeoutSecs ++ "s")
  else
    (sync_from_spec cfg (world spec) spec).result

/-- `SyncEngine::sync_specs_parallel`: one future per spec; an `Err` (git
failure or timeout) is converted into a `Failed` outcome, never dropped.
The unordered completion of `FuturesUnordered` yields a permutation of this
list; the claims proved below are permutation-invariant counts. -/
def sync_specs_parallel (cfg : Config) (timedOut : RepoSpec → Bool)
    (world : RepoSpec → GitWorld) (repos : List RepoSpec) : List SyncResult :=
  repos.map (fun spec =>
    match run_spec_with_timeout cfg timedOut world spec with
    | .ok r => r
    | .error e => .Failed spec.local_path ("Sync operation failed: " ++ e))

/-- Adaptive concurrency (`SyncEngine::calculate_adaptive_concurrency`),
with the `f64` arithmetic modelled by exact rational arithmetic; `round`
is round-half-up, matching `f64::round` on the nonnegative values that occur,
and the `as usize` cast saturates at 0 via `Int.toNat`. -/
def calculate_adaptive_concurrency (repos : List RepoSpec) (base_parallel : Nat) :
    Nat :=
  let sizes : List Nat := repos.filterMap (fun r => r.size_bytes)
  let avg_size : ℚ :=
    ((sizes.map (fun (s : Nat) => (s : ℚ))).sum) / ((max repos.length 1 : Nat) : ℚ)
  let size_factor : ℚ :=
    if avg_size > 50000000 then 1/2
    else if avg_size > 10000000 then 3/4
    else 1
  let count_factor : ℚ :=
    if repos.length > 50 then
      (max ((base_parallel : ℚ) * (3/5)) 3) / (base_parallel : ℚ)
    else if repos.length > 20 then 4/5
    else 1
  let network_optimized : Nat :=
    if base_parallel = 4 then min 6 repos.length else base_parallel
  let calculated : Nat :=
    (round ((network_optimized : ℚ) * size_factor * count_factor)).toNat
  min (max calculated 1) 12

/-- Follows the spec's words (§4.4): `size_factor` from the mean of
`size_bytes` with sizeless repos contributing 0, `count_factor` as
`max(0.6, 3/P_base)` past 50 repos, `network_base = min(6, N)` only for the
default `P_base = 4`, and `P_eff = clamp(round(network_base · size_factor ·
count_factor), 1, 12)`. -/
def spec_adaptive_concurrency (repos : List RepoSpec) (base_parallel : Nat) :
    Nat :=
  let n := repos.length
  let mean : ℚ :=
    ((repos.map (fun r => ((r.size_bytes.getD 0 : Nat) : ℚ))).sum) / (n : ℚ)
  let size_factor : ℚ :=
    if mean > 50000000 then 1/2 else if mean > 10000000 then 3/4 else 1
  let count_factor : ℚ :=
    if n > 50 then max (3/5) (3 / (base_parallel : ℚ))
    else if n > 20 then 4/5
    else 1
  let network_base : Nat := if base_parallel = 4 then min 6 n else base_parallel
  min (max ((round ((network_base : ℚ) * size_factor * count_factor)).toNat) 1) 12

/-! ### Result recording (`SyncEngine::record_sync_result/record_sync_results`) -/

/-- `SyncEngine::record_sync_result`: the database writes one outcome
causes, in order. -/
def record_sync_result (result : SyncResult) (repo_full_name : String) :
    List DbOp :=
  match result with
  | .Cloned path branch =>
    [.upsertRepo repo_full_name (some (pathToString path)) branch .Ok none,
     .recordEvent (some repo_full_name) .Cloned
       ("Cloned " ++ ((branch.map (fun b => " on branch " ++ b)).getD ""))
       none]
  | .Pulled path commits_updated branch =>
    [.upsertRepo repo_full_name (some (pathToString path)) branch .Ok none] ++
    (if commits_updated > 0 then
      [.recordEvent (some repo_full_name) .Pulled
        ("Pulled " ++ toString commits_updated ++ " commits") none]
     else [])
  | .BranchSwitched path from_branch to_branch commits_updated =>
    [.upsertRepo repo_full_name (some (pathToString path)) (some to_branch)
       .Ok none,
     .recordEvent (some repo_full_name) .BranchSwitch
       ("Switched from " ++ from_branch ++ " to " ++ to_branch ++ " (" ++
        toString commits_updated ++ " commits)")
       (some ("\x7b\"from\": \"" ++ from_branch ++ "\", \"to\": \"" ++
              to_branch ++ "\", \"commits\": " ++ toString commits_updated ++
              "\x7d"))]
  | .FetchedOnly path reason =>
    let etypeStatus : EventType × RepoStatus :=
      if strContains reason "local changes" then (.SkippedLocalChanges, .Skipped)
      else if strContains reason "conflict" then (.SkippedConflicts, .Skipped)
      else if strContains reason "ahead" then (.SkippedAheadOfRemote, .Skipped)
      else (.Pulled, .Ok)
    [.upsertRepo repo_full_name (some (pathToString path)) none
       etypeStatus.2 (some reason)] ++
    (if etypeStatus.1 ≠ EventType.Pulled then
      [.recordEvent (some repo_full_name) etypeStatus.1
        ("Fetch only: " ++ reason) none]
     else [])
  | .UpToDate path branch =>
    [.upsertRepo repo_full_name (some (pathToString path)) branch .Ok none]
  | .Skipped path reason =>
    let etype : EventType :=
      if strContains reason "local changes" then .SkippedLocalChanges
      else if strContains reason "conflict" then .SkippedConflicts
      else if strContains reason "ahead" then .SkippedAheadOfRemote
      else .SkippedLocalChanges
    [.upsertRepo repo_full_name (some (pathToString path)) none
       .Skipped (some reason),
     .recordEvent (some repo_full_name) etype ("Skipped: " ++ reason) none]
  | .Failed path error =>
    [.upsertRepo repo_full_name (some (pathToString path)) none
       .Error (some error),
     .recordEvent (some repo_full_name) .SyncError ("Sync error: " ++ error)
       none]

/-- The repo key extraction inside `SyncEngine::record_sync_results`:
`path.components().rev().take(2)` matched as `[repo, owner]`, `[repo]`, or
the whole path string. -/
def repoKeyOfPath (path : RPath) : String :=
  match (path.reverse).take 2 with
  | [repo, owner] => owner ++ "/" ++ repo
  | [repo] => repo
  | _ => pathToString path

/-- `SyncEngine::record_sync_results`. -/
def record_sync_results (results : List SyncResult) : List DbOp :=
  results.flatMap (fun r => record_sync_result r (repoKeyOfPath r.path))

/-- Count of `upsert_repo` calls in a write list. -/
def countUpserts (ops : List DbOp) : Nat :=
  ops.countP (fun o => match o with | .upsertRepo _ _ _ _ _ => true | _ => false)

/-- Count of `record_event` calls in a write list. -/
def countEvents (ops : List DbOp) : Nat :=
  ops.countP (fun o => match o with | .recordEvent _ _ _ _ => true | _ => false)

/-- The event types of the `record_event` calls in a write list. -/
def eventTypes (ops : List DbOp) : List EventType :=
  ops.filterMap (fun o => match o with
    | .recordEvent _ t _ _ => some t
    | _ => none)

/-- The outcomes the recorder intentionally keeps silent (no event row):
`UpToDate`, `Pulled` with zero commits, and `FetchedOnly` whose reason
matches none of the local-changes/conflict/ahead texts. -/
def isSilentOutcome (r : SyncResult) : Bool :=
  match r with
  | .UpToDate _ _ => true
  | .Pulled _ n _ => n = 0
  | .FetchedOnly _ reason =>
    !(strContains reason "local changes" || strContains reason "conflict" ||
      strContains reason "ahead")
  | _ => false

/-! ### Reduction lemmas for `GitM` -/

theorem gitM_bind_ok {α β : Type} (t : List GitCmd) (a : α) (f : α → GitM β) :
    (bind ((t, Except.ok a) : GitM α) f : GitM β) = ((t ++ (f a).1), (f a).2) :=
  rfl

theorem gitM_bind_err {α β : Type} (t : List GitCmd) (e : String)
    (f : α → GitM β) :
    (bind ((t, Except.error e) : GitM α) f : GitM β) = (t, Except.error e) :=
  rfl

theorem gitM_pure {α : Type} (a : α) :
    (pure a : GitM α) = ([], Except.ok a) :=
  rfl

theorem gitM_bind_warn {β : Type} (x : GitM Unit) (f : Unit → GitM β) :
    (bind (warnOnly x) f : GitM β) = ((x.1 ++ (f ()).1), (f ()).2) :=
  rfl

theorem gitM_bind_ite_warn {β : Type} (P : Prop) [Decidable P] (x : GitM Unit)
    (f : Unit → GitM β) :
    (bind (if P then warnOnly x else pure ()) f : GitM β) =
      ((if P then x.1 else []) ++ (f ()).1, (f ()).2) := by
  by_cases h : P <;> simp [h, gitM_bind_warn, gitM_bind_ok, gitM_pure]

instance exceptDecEq {ε α : Type} [DecidableEq ε] [DecidableEq α] :
    DecidableEq (Except ε α) := fun x y =>
  match x, y with
  | .ok a, .ok b =>
    if h : a = b then isTrue (by rw [h]) else isFalse (by simp [h])
  | .error e, .error f =>
    if h : e = f then isTrue (by rw [h]) else isFalse (by simp [h])
  | .ok _, .error _ => isFalse (by simp)
  | .error _, .ok _ => isFalse (by simp)

theorem gitM_bind_pure {α β : Type} (a : α) (f : α → GitM β) :
    (bind (pure a : GitM α) f : GitM β) = f a := by
  show (([] ++ (f a).1), (f a).2) = f a
  simp

/-- Closed form of `has_uncommitted_changes`. -/
theorem has_uncommitted_changes_eq (w : GitWorld) :
    has_uncommitted_changes w = ([GitCmd.status], .ok (w.statusOut != "")) :=
  rfl

/-- Closed form of `has_untracked_files`. -/
theorem has_untracked_files_eq (w : GitWorld) :
    has_untracked_files w = ([GitCmd.lsFiles], .ok (w.lsFilesOut != "")) :=
  rfl

/-- Closed form of `get_current_branch`. -/
theorem get_current_branch_eq (w : GitWorld) :
    get_current_branch w =
      ([GitCmd.showCurrentBranch],
       .ok (if w.branchOk && w.branchOut != "" then some (strTrim w.branchOut)
            else none)) :=
  rfl

/-- Closed form of `get_remote_url`. -/
theorem get_remote_url_eq (w : GitWorld) :
    get_remote_url w =
      ([GitCmd.remoteGetUrl],
       .ok (if w.remoteOk then some (strTrim w.remoteOut) else none)) :=
  rfl

/-- Closed form of `git_fetch`. -/
theorem git_fetch_eq (w : GitWorld) :
    git_fetch w =
      ([GitCmd.fetchOrigin],
       if w.fetchOk = true then .ok ()
       else .error ("Git fetch failed: " ++ w.fetchErr)) := by
  by_cases h : w.fetchOk = true <;>
    simp [git_fetch, emit, gitErr, gitM_bind_ok, gitM_pure, h]

/-- Closed form of `is_ahead_of_remote`. -/
theorem is_ahead_of_remote_eq (w : GitWorld) :
    is_ahead_of_remote w =
      ([GitCmd.revListAhead],
       .ok (if w.aheadOk then decide (parse_count_u32 (strTrim w.aheadOut) > 0)
            else false)) :=
  rfl

/-- Closed form of `is_behind_remote`. -/
theorem is_behind_remote_eq (w : GitWorld) :
    is_behind_remote w =
      ([GitCmd.revListBehind],
       .ok (if w.behindOk then decide (parse_count_u32 (strTrim w.behindOut) > 0)
            else false)) :=
  rfl

/-- Closed form of `has_merge_conflicts`. -/
theorem has_merge_conflicts_eq (w : GitWorld) :
    has_merge_conflicts w = ([GitCmd.diffUnmerged], .ok (w.diffUnmergedOut != "")) :=
  rfl

/-- Closed form of `analyze_repo_state` on an existing git directory: the
eight read-only queries and the assembled state. -/
theorem analyze_repo_state_eq (w : GitWorld) (path : RPath)
    (remote_url : String)
    (hex : w.pathExists = true) (hgit : w.gitDirExists = true) :
    analyze_repo_state w path remote_url =
      ([GitCmd.status, GitCmd.lsFiles, GitCmd.showCurrentBranch,
        GitCmd.remoteGetUrl, GitCmd.fetchOrigin, GitCmd.revListAhead,
        GitCmd.revListBehind, GitCmd.diffUnmerged],
       .ok { path, exists_ := true,
             has_uncommitted_changes := w.statusOut != "",
             has_untracked_files := w.lsFilesOut != "",
             is_ahead_of_remote :=
               if w.aheadOk then decide (parse_count_u32 (strTrim w.aheadOut) > 0)
               else false,
             is_behind_remote :=
               if w.behindOk then decide (parse_count_u32 (strTrim w.behindOut) > 0)
               else false,
             has_conflicts := w.diffUnmergedOut != "",
             remote_url := if w.remoteOk then some (strTrim w.remoteOut) else none,
             current_branch :=
               if w.branchOk && w.branchOut != "" then some (strTrim w.branchOut)
               else none }) := by
  simp [analyze_repo_state, hex, hgit, has_uncommitted_changes_eq,
    has_untracked_files_eq, get_current_branch_eq, get_remote_url_eq,
    git_fetch_eq, is_ahead_of_remote_eq, is_behind_remote_eq,
    has_merge_conflicts_eq, warnOnly, gitM_bind_ok, gitM_pure, gitM_bind_pure]

/-- Closed form of `git_pull`: the issued commands and the outcome. -/
theorem git_pull_eq (cfg : Config) (w : GitWorld) (path : RPath) :
    git_pull cfg w path =
      (GitCmd.pull cfg.sync.fast_forward_only ::
        (if w.pullOk = true then
          (if cfg.advanced.preserve_timestamps = true then
            (set_directory_commit_timestamp w).1
           else []) ++ [GitCmd.showCurrentBranch]
         else []),
       if w.pullOk = true then
         .ok (.Pulled path (parse_pull_output w.pullOut)
           (if w.branchOk && w.branchOut != "" then some (strTrim w.branchOut)
            else none))
       else .ok (.Failed path ("Git pull failed: " ++ w.pullErr))) := by
  by_cases hp : w.pullOk = true <;>
    by_cases hpt : cfg.advanced.preserve_timestamps = true <;>
      simp [git_pull, emit, get_current_branch, attempt, gitM_bind_ok,
        gitM_pure, gitM_bind_warn, gitM_bind_ite_warn, hp, hpt]

/-! ### Shared concrete fixtures used by witnesses and counterexamples -/

/-- The out-of-the-box configuration (`Config::default` values from
`src/config.rs`; `branches` per the spec's defaults: safe-pull strategy, no
exclusions). -/
def cfgDefault : Config :=
  { base_directory := ["/", "repos"],
    sync := { strategy := "safe-pull", max_parallel := 4, timeoutSecs := 300,
              auto_stash := false, fast_forward_only := true },
    organization := { separate_org_dirs := true,
                      conflict_resolution := "prefix-org" },
    advanced := { preserve_timestamps := true, verify_clone := true,
                  cleanup_on_error := true },
    branches := { most_recent_strategy := false,
                  is_branch_excluded := fun _ => false } }

/-- A clean, up-to-date repository world on branch `main`. -/
def wClean : GitWorld :=
  { pathExists := true, gitDirExists := true,
    statusOk := true, statusOut := "", lsFilesOut := "",
    branchOk := true, branchOut := "main\n",
    remoteOk := true, remoteOut := "https://github.com/a/b.git\n",
    fetchOk := true, fetchErr := "", fetchAllOk := true, fetchAllErr := "",
    aheadOk := true, aheadOut := "0\n", behindOk := true, behindOut := "0\n",
    diffUnmergedOut := "",
    pullOk := true, pullOut := "Already up to date.\n", pullErr := "",
    stashOk := true, stashErr := "",
    checkoutLocalOk := true, checkoutTrackOk := true, checkoutErr := "",
    cloneOk := true, cloneErr := "", fsckOk := true, fsckErr := "",
    logOk := true, logOut := "1700000000\n",
    forEachRefOk := true, remoteRefs := [] }

/-- Same world with a modified tracked file (`git status --porcelain`
reports ` M README.md`). -/
def wDirty : GitWorld := { wClean with statusOut := " M README.md\n" }

/-- Same world, two commits ahead of the remote and zero behind. -/
def wAhead : GitWorld := { wClean with aheadOut := "2\n" }

/-- Same world, behind by three commits and whose `origin` remote points at
a different host than the spec's clone URL. -/
def wMismatch : GitWorld :=
  { wClean with remoteOut := "https://gitlab.com/x/y.git\n",
                behindOut := "3\n",
                pullOut := "Updating ab12cd..ef34gh\n" }

/-- A RepoSpec for `a/b` at `/repos/a/b`. -/
def specAB : RepoSpec :=
  { name := "b", owner := "a",
    clone_url := "https://github.com/a/b.git", clone_url_alt := none,
    clone_method := .Https, local_path := ["/", "repos", "a", "b"],
    is_fork := false, is_archived := false, size_bytes := some 1024,
    default_branch := some "main", provider := "github" }

/-- The octocrab `Repository` record for `a/b`. -/
def repoAB : Repository :=
  { name := "b", full_name := some "a/b",
    clone_url := some "https://github.com/a/b.git", ssh_url := none }

/-- A clean analyzed state at `/repos/a/b`: no local changes, no conflicts,
neither ahead nor behind. -/
def stClean : RepoState :=
  { path := ["/", "repos", "a", "b"], exists_ := true,
    has_uncommitted_changes := false, has_untracked_files := false,
    is_ahead_of_remote := false, is_behind_remote := false,
    has_conflicts := false,
    remote_url := some "https://github.com/a/b.git",
    current_branch := some "main" }

/-! ### Claim C1 -/

/-- C1: for every RepoSpec whose local path exists, if `git status
--porcelain` produces any (non-whitespace) output, `sync_from_spec` returns
`Skipped` with reason exactly "Repository has local changes (uncommitted or
untracked files)", issues no state-changing git command (its whole trace is
the single `git status --porcelain` query, so no pull, checkout, clone or
stash), and recording this outcome upserts the repo as skipped and appends
exactly one event of type `skipped_local_changes`, whose severity is
`warning`. -/
theorem c1_dirty_tree_skips (cfg : Config) (w : GitWorld) (spec : RepoSpec)
    (hex : w.pathExists = true) (hok : w.statusOk = true)
    (hdirty : (strTrim w.statusOut) ≠ "") :
    (sync_from_spec cfg w spec).result =
      .ok (.Skipped spec.local_path
        "Repository has local changes (uncommitted or untracked files)") ∧
    (sync_from_spec cfg w spec).trace = [GitCmd.status] ∧
    (∀ c ∈ (sync_from_spec cfg w spec).trace, c.isStateChanging = false) ∧
    (record_sync_result
        (.Skipped spec.local_path
          "Repository has local changes (uncommitted or untracked files)")
        (repoKeyOfPath spec.local_path) =
      [.upsertRepo (repoKeyOfPath spec.local_path)
         (some (pathToString spec.local_path)) none .Skipped
         (some "Repository has local changes (uncommitted or untracked files)"),
       .recordEvent (some (repoKeyOfPath spec.local_path))
         .SkippedLocalChanges
         "Skipped: Repository has local changes (uncommitted or untracked files)"
         none]) ∧
    EventType.SkippedLocalChanges.severity = .Warning := by
  have h2 : ((strTrim w.statusOut) != "") = true := by simpa using hdirty
  refine ⟨?_, ?_, ?_, ?_, rfl⟩
  · simp [sync_from_spec, has_any_local_changes, emit, hex, hok, h2,
      gitM_bind_ok, gitM_bind_err, gitM_pure, GitM.result]
  · simp [sync_from_spec, has_any_local_changes, emit, hex, hok, h2,
      gitM_bind_ok, gitM_bind_err, gitM_pure, GitM.trace]
  · intro c hc
    have ht : (sync_from_spec cfg w spec).trace = [GitCmd.status] := by
      simp [sync_from_spec, has_any_local_changes, emit, hex, hok, h2,
        gitM_bind_ok, gitM_bind_err, gitM_pure, GitM.trace]
    rw [ht] at hc
    simp only [List.mem_singleton] at hc
    subst hc
    rfl
  · have : strContains
        "Repository has local changes (uncommitted or untracked files)"
        "local changes" = true := by decide
    simp [record_sync_result, this]

/-- C1 witness: the hypotheses and conclusion of `c1_dirty_tree_skips` hold
at the concrete dirty world `wDirty`. -/
theorem c1_dirty_tree_skips_witness :
    wDirty.pathExists = true ∧ wDirty.statusOk = true ∧
    strTrim wDirty.statusOut ≠ "" ∧
    ((sync_from_spec cfgDefault wDirty specAB).result =
      .ok (.Skipped specAB.local_path
        "Repository has local changes (uncommitted or untracked files)") ∧
    (sync_from_spec cfgDefault wDirty specAB).trace = [GitCmd.status] ∧
    (∀ c ∈ (sync_from_spec cfgDefault wDirty specAB).trace,
      c.isStateChanging = false) ∧
    (record_sync_result
        (.Skipped specAB.local_path
          "Repository has local changes (uncommitted or untracked files)")
        (repoKeyOfPath specAB.local_path) =
      [.upsertRepo (repoKeyOfPath specAB.local_path)
         (some (pathToString specAB.local_path)) none .Skipped
         (some "Repository has local changes (uncommitted or untracked files)"),
       .recordEvent (some (repoKeyOfPath specAB.local_path))
         .SkippedLocalChanges
         "Skipped: Repository has local changes (uncommitted or untracked files)"
         none]) ∧
    EventType.SkippedLocalChanges.severity = .Warning) :=
  ⟨rfl, rfl, by decide,
   c1_dirty_tree_skips cfgDefault wDirty specAB rfl rfl (by decide)⟩

/-! ### Claim C2 -/

/-- C2 counterexample: in a clean, conflict-free world that is two commits
ahead of the remote and zero behind, the per-repo sync that the orchestrator
dispatches (`sync_from_spec`, `src/sync.rs` line 171) performs no ahead
check at all: it runs `git pull` and returns `Pulled`, not
`FetchedOnly{reason="Repository is ahead of remote (has local commits)"}`.
The ahead check of the claim lives only in the legacy `safe_pull_sync`
path, which the orchestrator never calls. -/
theorem c2_counterexample :
    wAhead.statusOut = "" ∧ wAhead.diffUnmergedOut = "" ∧
    parse_count_u32 (strTrim wAhead.aheadOut) = 2 ∧
    parse_count_u32 (strTrim wAhead.behindOut) = 0 ∧
    (sync_from_spec cfgDefault wAhead specAB).result =
      .ok (.Pulled ["/", "repos", "a", "b"] 0 (some "main")) ∧
    (sync_from_spec cfgDefault wAhead specAB).result ≠
      .ok (.FetchedOnly ["/", "repos", "a", "b"]
        "Repository is ahead of remote (has local commits)") ∧
    GitCmd.pull true ∈ (sync_from_spec cfgDefault wAhead specAB).trace := by
  decide

/-- C2 (amended): the ahead guard is implemented in `safe_pull_sync` (the
`Repository`-based `sync_repository` path), not in `sync_from_spec`: for
every analyzed state with a clean tree, no conflicts, ahead of the remote
and not behind it, `safe_pull_sync` returns `FetchedOnly` with reason
"Repository is ahead of remote (has local commits)" and issues no git
command at all — in particular it never pulls into the ahead history. -/
theorem c2_ahead_amended (cfg : Config) (w : GitWorld) (st : RepoState)
    (hchanges : st.has_uncommitted_changes = false)
    (hconf : st.has_conflicts = false)
    (hahead : st.is_ahead_of_remote = true)
    (_hbehind : st.is_behind_remote = false) :
    (safe_pull_sync cfg w st).result =
      .ok (.FetchedOnly st.path
        "Repository is ahead of remote (has local commits)") ∧
    (safe_pull_sync cfg w st).trace = [] := by
  constructor <;>
    simp [safe_pull_sync, hchanges, hconf, hahead, gitM_bind_ok, gitM_bind_err,
      gitM_pure, GitM.result, GitM.trace]

/-- C2 witness: `c2_ahead_amended` applied at the concrete ahead state. -/
theorem c2_ahead_amended_witness :
    ({ stClean with is_ahead_of_remote := true } : RepoState).has_uncommitted_changes = false ∧
    ({ stClean with is_ahead_of_remote := true } : RepoState).has_conflicts = false ∧
    ({ stClean with is_ahead_of_remote := true } : RepoState).is_ahead_of_remote = true ∧
    ({ stClean with is_ahead_of_remote := true } : RepoState).is_behind_remote = false ∧
    ((safe_pull_sync cfgDefault wClean { stClean with is_ahead_of_remote := true }).result =
      .ok (.FetchedOnly ({ stClean with is_ahead_of_remote := true } : RepoState).path
        "Repository is ahead of remote (has local commits)") ∧
    (safe_pull_sync cfgDefault wClean { stClean with is_ahead_of_remote := true }).trace = []) :=
  ⟨rfl, rfl, rfl, rfl,
   c2_ahead_amended cfgDefault wClean { stClean with is_ahead_of_remote := true }
     rfl rfl rfl rfl⟩

/-! ### Claim C3 -/

/-- C3 counterexample: on a clean, conflict-free state that is neither
ahead nor behind, `safe_pull_sync` returns
`FetchedOnly{reason="Repository is up to date"}` — the `UpToDate` variant is
never constructed by the sync code, refuting "returns the UpToDate variant
(not Pulled and not FetchedOnly)". -/
theorem c3_counterexample :
    stClean.has_uncommitted_changes = false ∧
    stClean.has_conflicts = false ∧
    stClean.is_ahead_of_remote = false ∧
    stClean.is_behind_remote = false ∧
    (safe_pull_sync cfgDefault wClean stClean).result =
      .ok (.FetchedOnly stClean.path "Repository is up to date") ∧
    (safe_pull_sync cfgDefault wClean stClean).result ≠
      .ok (.UpToDate stClean.path stClean.current_branch) := by
  decide

/-- C3 (amended): on a clean, conflict-free, not-ahead state,
`safe_pull_sync` returns `FetchedOnly{reason="Repository is up to date"}`
(not the `UpToDate` variant) when the repository is not behind, issuing no
git command; only when it is behind does it run `git pull`, returning
`Pulled{commits_updated, branch}` on success. -/
theorem c3_uptodate_amended (cfg : Config) (w : GitWorld) (st : RepoState)
    (hchanges : st.has_uncommitted_changes = false)
    (hconf : st.has_conflicts = false)
    (hahead : st.is_ahead_of_remote = false) :
    (st.is_behind_remote = false →
      (safe_pull_sync cfg w st).result =
        .ok (.FetchedOnly st.path "Repository is up to date") ∧
      (safe_pull_sync cfg w st).trace = []) ∧
    (st.is_behind_remote = true →
      GitCmd.pull cfg.sync.fast_forward_only ∈ (safe_pull_sync cfg w st).trace ∧
      (w.pullOk = true →
        (safe_pull_sync cfg w st).result =
          .ok (.Pulled st.path (parse_pull_output w.pullOut)
            (if w.branchOk && w.branchOut != "" then some (strTrim w.branchOut)
             else none)))) := by
  constructor
  · intro hb
    constructor <;>
      simp [safe_pull_sync, hchanges, hconf, hahead, hb, gitM_bind_ok,
        gitM_bind_err, gitM_pure, GitM.result, GitM.trace]
  · intro hb
    have hsp : safe_pull_sync cfg w st = git_pull cfg w st.path := by
      simp [safe_pull_sync, hchanges, hconf, hahead, hb, gitM_bind_pure]
    rw [hsp, git_pull_eq]
    constructor
    · simp [GitM.trace]
    · intro hp
      simp [GitM.result, hp]

/-- C3 witness: `c3_uptodate_amended` applied at the concrete clean state. -/
theorem c3_uptodate_amended_witness :
    stClean.has_uncommitted_changes = false ∧
    stClean.has_conflicts = false ∧
    stClean.is_ahead_of_remote = false ∧
    ((stClean.is_behind_remote = false →
      (safe_pull_sync cfgDefault wClean stClean).result =
        .ok (.FetchedOnly stClean.path "Repository is up to date") ∧
      (safe_pull_sync cfgDefault wClean stClean).trace = []) ∧
    (stClean.is_behind_remote = true →
      GitCmd.pull cfgDefault.sync.fast_forward_only ∈
        (safe_pull_sync cfgDefault wClean stClean).trace ∧
      (wClean.pullOk = true →
        (safe_pull_sync cfgDefault wClean stClean).result =
          .ok (.Pulled stClean.path (parse_pull_output wClean.pullOut)
            (if wClean.branchOk && wClean.branchOut != "" then
              some (strTrim wClean.branchOut)
             else none))))) :=
  ⟨rfl, rfl, rfl, c3_uptodate_amended cfgDefault wClean stClean rfl rfl rfl⟩

/-! ### Claim C4 -/

/-- C4 counterexample: a repository whose configured `origin` URL
(`https://gitlab.com/x/y.git`) does not match the spec's clone URL
(`https://github.com/a/b.git`) under normalization is nevertheless pulled by
the per-repo sync that the orchestrator dispatches (`sync_from_spec`): it
returns `Pulled`, not a "Remote URL mismatch" skip, and `git pull` appears
in its trace.  Only the legacy `sync_repository` path re-validates the
remote URL. -/
theorem c4_counterexample :
    remote_urls_match (strTrim wMismatch.remoteOut) specAB.clone_url = false ∧
    (sync_from_spec cfgDefault wMismatch specAB).result =
      .ok (.Pulled ["/", "repos", "a", "b"] 1 (some "main")) ∧
    GitCmd.pull true ∈ (sync_from_spec cfgDefault wMismatch specAB).trace := by
  decide

/-- C4 (amended): the remote-URL validation is performed by the
`Repository`-based `sync_repository` path only: for every existing
repository whose configured origin URL, after URL normalization, differs
from the chosen clone URL, `sync_repository` returns `Skipped` with a reason
beginning "Remote URL mismatch" and issues no state-changing git command (no
pull, checkout, clone or stash); the RepoSpec-based `sync_from_spec` does
not re-validate the remote URL. -/
theorem c4_mismatch_amended (cfg : Config) (w : GitWorld) (repo : Repository)
    (u : String)
    (hex : w.pathExists = true) (hgit : w.gitDirExists = true)
    (hurl : repoCloneUrl repo = some u)
    (hrem : w.remoteOk = true)
    (hmm : remote_urls_match (strTrim w.remoteOut) u = false) :
    (sync_repository cfg w repo).result =
      .ok (.Skipped (get_repo_directory cfg repo)
        ("Remote URL mismatch: expected " ++ u ++ ", found " ++
          strTrim w.remoteOut)) ∧
    (∀ c ∈ (sync_repository cfg w repo).trace, c.isStateChanging = false) := by
  have hres : sync_repository cfg w repo =
      ([GitCmd.status, GitCmd.lsFiles, GitCmd.showCurrentBranch,
        GitCmd.remoteGetUrl, GitCmd.fetchOrigin, GitCmd.revListAhead,
        GitCmd.revListBehind, GitCmd.diffUnmerged],
       Except.ok (.Skipped (get_repo_directory cfg repo)
        ("Remote URL mismatch: expected " ++ u ++ ", found " ++
          strTrim w.remoteOut))) := by
    simp [sync_repository, analyze_repo_state_eq _ _ _ hex hgit, hex, hurl,
      hrem, hmm, gitM_bind_ok, gitM_bind_err, gitM_pure, gitM_bind_pure]
  constructor
  · simp [GitM.result, hres]
  · intro c hc
    rw [show (sync_repository cfg w repo).trace =
        [GitCmd.status, GitCmd.lsFiles, GitCmd.showCurrentBranch,
         GitCmd.remoteGetUrl, GitCmd.fetchOrigin, GitCmd.revListAhead,
         GitCmd.revListBehind, GitCmd.diffUnmerged] from by rw [hres]; rfl] at hc
    fin_cases hc <;> rfl

/-- C4 witness: `c4_mismatch_amended` applied at the concrete mismatching
world. -/
theorem c4_mismatch_amended_witness :
    wMismatch.pathExists = true ∧ wMismatch.gitDirExists = true ∧
    repoCloneUrl repoAB = some "https://github.com/a/b.git" ∧
    wMismatch.remoteOk = true ∧
    remote_urls_match (strTrim wMismatch.remoteOut)
      "https://github.com/a/b.git" = false ∧
    ((sync_repository cfgDefault wMismatch repoAB).result =
      .ok (.Skipped (get_repo_directory cfgDefault repoAB)
        ("Remote URL mismatch: expected " ++ "https://github.com/a/b.git" ++
          ", found " ++ strTrim wMismatch.remoteOut)) ∧
    (∀ c ∈ (sync_repository cfgDefault wMismatch repoAB).trace,
      c.isStateChanging = false)) :=
  ⟨rfl, rfl, rfl, rfl, by decide,
   c4_mismatch_amended cfgDefault wMismatch repoAB "https://github.com/a/b.git"
     rfl rfl rfl rfl (by decide)⟩

/-! ### Claim C5 -/

/-- The outcome variants `compile_summary` counts as successful. -/
def isSuccessOutcome (r : SyncResult) : Bool :=
  match r with
  | .Cloned _ _ => true
  | .Pulled _ _ _ => true
  | .BranchSwitched _ _ _ _ => true
  | .FetchedOnly _ _ => true
  | .UpToDate _ _ => true
  | _ => false

theorem summary_counts_partition (results : List SyncResult) :
    results.countP (fun r =>
      match r with
      | .Cloned _ _ => true
      | .Pulled _ _ _ => true
      | .BranchSwitched _ _ _ _ => true
      | .FetchedOnly _ _ => true
      | .UpToDate _ _ => true
      | _ => false) +
    results.countP (fun r =>
      match r with
      | .Skipped _ _ => true
      | _ => false) +
    results.countP (fun r =>
      match r with
      | .Failed _ _ => true
      | _ => false) = results.length := by
  induction results with
  | nil => rfl
  | cons r rs ih =>
    cases r <;> simp [List.countP_cons] <;> omega

/-- C5: a run over `N` specs yields exactly one outcome per spec (the
per-spec future's error or timeout is converted into a `Failed` outcome,
never dropped), and the compiled summary satisfies
`total_repositories = N = successful + skipped + failed`, where `Cloned`,
`Pulled`, `BranchSwitched`, `FetchedOnly` and `UpToDate` count as
successful. -/
theorem c5_run_totals (cfg : Config) (timedOut : RepoSpec → Bool)
    (world : RepoSpec → GitWorld) (repos : List RepoSpec) :
    (sync_specs_parallel cfg timedOut world repos).length = repos.length ∧
    sync_specs_parallel cfg timedOut world repos =
      repos.map (fun spec =>
        match run_spec_with_timeout cfg timedOut world spec with
        | .ok r => r
        | .error e =>
          .Failed spec.local_path ("Sync operation failed: " ++ e)) ∧
    (compile_summary (sync_specs_parallel cfg timedOut world repos)).total_repositories
      = repos.length ∧
    (compile_summary (sync_specs_parallel cfg timedOut world repos)).total_repositories
      = (compile_summary (sync_specs_parallel cfg timedOut world repos)).successful_operations
      + (compile_summary (sync_specs_parallel cfg timedOut world repos)).skipped_operations
      + (compile_summary (sync_specs_parallel cfg timedOut world repos)).failed_operations ∧
    (compile_summary (sync_specs_parallel cfg timedOut world repos)).successful_operations
      = (sync_specs_parallel cfg timedOut world repos).countP isSuccessOutcome := by
  refine ⟨?_, rfl, ?_, ?_, rfl⟩
  · simp [sync_specs_parallel]
  · simp [compile_summary, sync_specs_parallel]
  · exact (summary_counts_partition _).symm

/-! ### Claim C6 -/

/-- The code's filtered size sum coincides with the spec's "sizeless repos
contribute 0" sum. -/
theorem sizes_sum_eq (repos : List RepoSpec) :
    (((repos.filterMap (fun r => r.size_bytes) : List Nat).map
        (fun (s : Nat) => (s : ℚ))).sum) =
    ((repos.map (fun r => ((r.size_bytes.getD 0 : Nat) : ℚ))).sum) := by
  induction repos with
  | nil => rfl
  | cons r rs ih =>
    cases h : r.size_bytes with
    | none =>
      simp only [List.filterMap_cons, h, List.map_cons, List.sum_cons,
        Option.getD_none, Nat.cast_zero, zero_add]
      exact ih
    | some s =>
      simp only [List.filterMap_cons, h, List.map_cons, List.sum_cons,
        Option.getD_some]
      rw [ih]

/-- The code's `sum / max(len, 1)` mean equals the spec's `sum / len` mean
(for the empty list both are 0). -/
theorem avg_size_eq (repos : List RepoSpec) :
    (((repos.filterMap (fun r => r.size_bytes) : List Nat).map
        (fun (s : Nat) => (s : ℚ))).sum) /
      ((max repos.length 1 : Nat) : ℚ) =
    ((repos.map (fun r => ((r.size_bytes.getD 0 : Nat) : ℚ))).sum) /
      ((repos.length : Nat) : ℚ) := by
  rw [← sizes_sum_eq]
  cases repos with
  | nil => simp
  | cons r rs =>
    have h : max (r :: rs).length 1 = (r :: rs).length := by
      simp [Nat.max_eq_left, Nat.succ_le_of_lt]
    rw [h]

/-- A 100 MiB repository specification. -/
def spec100MB : RepoSpec := { specAB with size_bytes := some 104857600 }

theorem filterMap_size_replicate (n : Nat) :
    ((List.replicate n spec100MB).filterMap (fun r => r.size_bytes) :
        List Nat) =
      List.replicate n 104857600 := by
  induction n with
  | zero => rfl
  | succ k ih => simp [List.replicate_succ, ih, spec100MB]

/-- C6: `calculate_adaptive_concurrency` computes exactly the formula of
§4.4 (with sizeless repos contributing 0 to the mean); the result always
lies in `[1, 12]`; and for 100 repos of `100 · 1024 · 1024` bytes with base
parallelism 4 it returns 2.  The `f64` arithmetic is modelled exactly by
rational arithmetic; `round` is round-half-up, matching `f64::round` on the
nonnegative values that occur. -/
theorem c6_adaptive_concurrency :
    (∀ (repos : List RepoSpec) (base_parallel : Nat),
      calculate_adaptive_concurrency repos base_parallel =
        spec_adaptive_concurrency repos base_parallel ∧
      1 ≤ calculate_adaptive_concurrency repos base_parallel ∧
      calculate_adaptive_concurrency repos base_parallel ≤ 12) ∧
    calculate_adaptive_concurrency (List.replicate 100 spec100MB) 4 = 2 := by
  constructor
  · intro repos b
    refine ⟨?_, ?_, ?_⟩
    · by_cases hb0 : b = 0
      · subst hb0
        simp [calculate_adaptive_concurrency, spec_adaptive_concurrency]
      · have hbQ : ((b : ℚ)) ≠ 0 := by exact_mod_cast hb0
        have hbpos : (0 : ℚ) < (b : ℚ) := by positivity
        have hcf : (max ((b : ℚ) * (3/5)) 3) / (b : ℚ) =
            max (3/5) (3 / (b : ℚ)) := by
          rw [← max_div_div_right hbpos.le ((b : ℚ) * (3/5)) 3,
            mul_div_cancel_left₀ _ hbQ]
        simp only [calculate_adaptive_concurrency, spec_adaptive_concurrency,
          avg_size_eq, hcf]
    · simp only [calculate_adaptive_concurrency]
      omega
    · simp only [calculate_adaptive_concurrency]
      omega
  · have havg :
        ((((List.replicate 100 spec100MB).filterMap
            (fun r => r.size_bytes)).map (fun (s : Nat) => (s : ℚ))).sum) /
          ((max (List.replicate 100 spec100MB).length 1 : Nat) : ℚ) =
        104857600 := by
      rw [filterMap_size_replicate]
      simp only [List.map_replicate, List.sum_replicate,
        List.length_replicate]
      norm_num
    simp only [calculate_adaptive_concurrency]
    rw [havg]
    simp only [List.length_replicate]
    norm_num [round_eq]
    rfl

/-! ### Claim C7 -/

/-- C7 counterexample: the normalization in `remote_urls_match` rewrites
only the literal `git@github.com:`, not `git@<host>:` for every host: for
`gitlab.com` the SSH form keeps its `git@` prefix, so the SSH and HTTPS
spellings of the same gitlab remote do not normalize to equal strings. -/
theorem c7_counterexample :
    normalizeUrl "git@gitlab.com:a/b.git" = "git@gitlab.com:a/b" ∧
    normalizeUrl "https://gitlab.com/a/b" = "https://gitlab.com/a/b" ∧
    normalizeUrl "git@gitlab.com:a/b.git" ≠ normalizeUrl "https://gitlab.com/a/b" ∧
    remote_urls_match "git@gitlab.com:a/b.git" "https://gitlab.com/a/b" = false := by
  decide

/-- C7 (amended): the URL normalization replaces (every occurrence of) the
literal `git@github.com:` by `https://github.com/`, strips trailing `.git`
suffixes and lowercases; hence for the `github.com` host specifically the
SSH form and the HTTPS form of any path normalize to equal strings — for
every path `p`, `normalize("git@github.com:" ++ p) =
normalize("https://github.com/" ++ p)` — and in particular
`normalize("git@github.com:a/b.git") = normalize("https://github.com/a/b")
= normalize("https://github.com/A/B.git")`.  For other hosts the SSH and
HTTPS forms do not normalize equal (see the counterexample). -/
theorem c7_normalization_amended :
    (∀ p : String,
      normalizeUrl ("git@github.com:" ++ p) =
        normalizeUrl ("https://github.com/" ++ p)) ∧
    normalizeUrl "git@github.com:a/b.git" = normalizeUrl "https://github.com/a/b" ∧
    normalizeUrl "https://github.com/a/b" = normalizeUrl "https://github.com/A/B.git" ∧
    normalizeUrl "git@github.com:a/b.git" = "https://github.com/a/b" ∧
    remote_urls_match "git@github.com:a/b.git" "https://github.com/a/b" = true ∧
    remote_urls_match "https://github.com/a/b" "https://github.com/A/B.git" = true :=
  ⟨fun _ => rfl, by decide, by decide, by decide, by decide, by decide⟩

/-! ### Claim C8 -/

/-- C8: `cleanup(days)` deletes only events that are both acknowledged and
strictly older than `now - days`: an event of the database that is missing
from the cleaned database was acknowledged and timestamped before the
cutoff — equivalently, no unacknowledged event and no event within `days`
of `now` is ever deleted. -/
theorem c8_cleanup_safe (days : Nat) (now : Int) (events : List DbEvent)
    (e : DbEvent) (hin : e ∈ events)
    (hgone : e ∉ (cleanup_old_events days now events).1) :
    e.acknowledged = true ∧ e.timestamp < now - 86400 * (days : Int) := by
  simp only [cleanup_old_events, List.mem_filter, hin, true_and,
    decide_eq_true_eq, not_not] at hgone
  exact ⟨hgone.2, hgone.1⟩

/-- A concrete acknowledged event at Unix second 0. -/
def ev0 : DbEvent :=
  { id := 1, timestamp := 0, repo_full_name := none,
    event_type := .Cloned, acknowledged := true }

/-- C8 witness: `c8_cleanup_safe` applied to a 31-day-old acknowledged
event cleaned with `days = 30`. -/
theorem c8_cleanup_safe_witness :
    ev0 ∈ [ev0] ∧ ev0 ∉ (cleanup_old_events 30 2678400 [ev0]).1 ∧
    (ev0.acknowledged = true ∧ ev0.timestamp < 2678400 - 86400 * (30 : Int)) :=
  ⟨by decide, by decide,
   c8_cleanup_safe 30 2678400 [ev0] ev0 (by decide) (by decide)⟩

/-! ### Claim C9 -/

theorem record_sync_result_upserts (r : SyncResult) (name : String) :
    countUpserts (record_sync_result r name) = 1 := by
  cases r with
  | Pulled p c b =>
    by_cases hc : c > 0 <;>
      simp [record_sync_result, countUpserts, List.countP_append,
        List.countP_cons, hc]
  | FetchedOnly p reason =>
    by_cases h1 : strContains reason "local changes" = true <;>
      by_cases h2 : strContains reason "conflict" = true <;>
        by_cases h3 : strContains reason "ahead" = true <;>
          simp [record_sync_result, countUpserts, List.countP_append,
            List.countP_cons, h1, h2, h3]
  | Skipped p reason =>
    by_cases h1 : strContains reason "local changes" = true <;>
      by_cases h2 : strContains reason "conflict" = true <;>
        by_cases h3 : strContains reason "ahead" = true <;>
          simp [record_sync_result, countUpserts, List.countP_cons,
            h1, h2, h3]
  | _ => simp [record_sync_result, countUpserts, List.countP_cons]

/-- C9: every outcome causes exactly one `upsert_repo` call and at most one
`record_event` call; exactly one event is appended unless the outcome is
silent (`UpToDate`, `Pulled` with 0 commits, or `FetchedOnly` with a reason
matching none of the local-changes/conflict/ahead texts), in which case no
event is appended; and over a whole run the recorder performs exactly one
upsert per outcome. -/
theorem c9_record_ops (r : SyncResult) (name : String) :
    countUpserts (record_sync_result r name) = 1 ∧
    countEvents (record_sync_result r name) ≤ 1 ∧
    countEvents (record_sync_result r name) =
      (if isSilentOutcome r then 0 else 1) ∧
    (∀ results : List SyncResult,
      countUpserts (record_sync_results results) = results.length) := by
  have hev : countEvents (record_sync_result r name) =
      (if isSilentOutcome r then 0 else 1) := by
    cases r with
    | Pulled p c b =>
      by_cases hc : c = 0 <;>
        simp [record_sync_result, countEvents, isSilentOutcome,
          List.countP_append, List.countP_cons, hc, Nat.pos_of_ne_zero]
    | FetchedOnly p reason =>
      by_cases h1 : strContains reason "local changes" = true <;>
        by_cases h2 : strContains reason "conflict" = true <;>
          by_cases h3 : strContains reason "ahead" = true <;>
            simp [record_sync_result, countEvents, isSilentOutcome,
              List.countP_append, List.countP_cons, h1, h2, h3]
    | Skipped p reason =>
      by_cases h1 : strContains reason "local changes" = true <;>
        by_cases h2 : strContains reason "conflict" = true <;>
          by_cases h3 : strContains reason "ahead" = true <;>
            simp [record_sync_result, countEvents, isSilentOutcome,
              List.countP_cons, h1, h2, h3]
    | _ => simp [record_sync_result, countEvents, isSilentOutcome,
        List.countP_cons]
  refine ⟨record_sync_result_upserts r name, ?_, hev, ?_⟩
  · rw [hev]
    split <;> omega
  · intro results
    induction results with
    | nil => rfl
    | cons x xs ih =>
      have hx := record_sync_result_upserts x (repoKeyOfPath x.path)
      simp only [record_sync_results, List.flatMap_cons, countUpserts,
        List.countP_append, List.length_cons] at hx ih ⊢
      omega

/-! ### Claim C10 -/

/-- A RepoSpec whose local path does not follow the `base/owner/name`
layout: owner `alice`, repo `proj`, checked out at
`/home/u/projects/proj`. -/
def specProj : RepoSpec :=
  { specAB with owner := "alice", name := "proj",
                local_path := ["/", "home", "u", "projects", "proj"] }

/-- C10: the key under which a run's outcomes are recorded is computed by
`record_sync_results` solely from the outcome's local path — the last two
path components joined as `owner/repo` when the path has at least two
components, otherwise the single last component — never from the
`RepoSpec`'s `owner`/`name` fields (which `record_sync_results` cannot even
see); consequently a repository at a path that does not follow the
`base/owner/name` layout is recorded under a key different from its spec
full name, e.g. `alice/proj` at `/home/u/projects/proj` is recorded as
`projects/proj`. -/
theorem c10_repo_key_from_path :
    (∀ (cs : List String) (a b : String),
      repoKeyOfPath (cs ++ [a, b]) = a ++ "/" ++ b) ∧
    (∀ a : String, repoKeyOfPath [a] = a) ∧
    (∀ results : List SyncResult,
      record_sync_results results =
        results.flatMap (fun r => record_sync_result r (repoKeyOfPath r.path))) ∧
    repoKeyOfPath specProj.local_path = "projects/proj" ∧
    specProj.full_name = "alice/proj" ∧
    repoKeyOfPath specProj.local_path ≠ specProj.full_name := by
  refine ⟨?_, fun a => rfl, fun results => rfl, by decide, by decide, by decide⟩
  intro cs a b
  simp [repoKeyOfPath, List.reverse_append, List.take]

end RepoSentry
